import Mathlib

set_option maxRecDepth 100000
set_option maxHeartbeats 4000000

/-!
Shallow embedding of the two repair engines of the repository
(`src/parsers/json-parser.js` and `src/parsers/xml-parser.js`).

Texts are modelled as `List Char` (JS strings are scanned by code unit; all
inputs considered here are ASCII).  Every global regex of the source is
translated into a bespoke left-to-right scanner with the exact
leftmost / greedy / backtracking semantics of that one regex.  Scanners that
jump over more than one character per step take a fuel argument (always called
with `length + 1`, and every step consumes at least one character, so the fuel
never runs out); on exhausted fuel they return the remaining input unchanged.
JS `\s` is modelled by the ASCII whitespace characters.
-/

def lbrace : Char := '\x7b'

def rbrace : Char := '\x7d'

def squote : Char := '\x27'

/-- ASCII model of the JS regex class `\s` and of `String.prototype.trim`. -/
def isWsJS (c : Char) : Bool :=
  c = ' ' || c = '\t' || c = '\n' || c = '\r' || c = '\x0b' || c = '\x0c'

def isAsciiAlpha (c : Char) : Bool :=
  (c.toNat ≥ 97 && c.toNat ≤ 122) || (c.toNat ≥ 65 && c.toNat ≤ 90)

def isAsciiDigit (c : Char) : Bool :=
  c.toNat ≥ 48 && c.toNat ≤ 57

/-- Model of `String.prototype.trim` (ASCII whitespace). -/
def strTrim (s : List Char) : List Char :=
  ((s.dropWhile isWsJS).reverse.dropWhile isWsJS).reverse

/-- First index (if any) at which `pat` occurs as a prefix of a suffix of `s`. -/
def findSub : List Char → List Char → Option Nat
  | _, [] => some 0
  | [], _ => none
  | c :: rest, pat =>
      if pat.isPrefixOf (c :: rest) then some 0
      else match findSub rest pat with
           | some n => some (n + 1)
           | none => none

/-- Whether `pat` occurs somewhere in `s` (model of `String.prototype.includes`). -/
def containsSub (s pat : List Char) : Bool :=
  (findSub s pat).isSome

/-- Model of `String.prototype.replace` with a plain-string pattern:
replace the first occurrence of `pat` (if any) by `repl`. -/
def replaceFirst (s pat repl : List Char) : List Char :=
  match findSub s pat with
  | some n => s.take n ++ repl ++ s.drop (n + pat.length)
  | none => s

namespace JSONParser

/-!
Embedding of `src/parsers/json-parser.js` (the current version of the file,
lines 1–546).  Method names keep the source names without the leading
underscore.
-/

def isIdentStart (c : Char) : Bool :=
  isAsciiAlpha c || c = '_' || c = '$'

def isIdentChar (c : Char) : Bool :=
  isAsciiAlpha c || isAsciiDigit c || c = '_' || c = '$'

/-- Fix 1 scanner: global regex `'([^']*)'` replaced by `"$1"`. -/
def sqGo : Nat → List Char → List Char
  | 0, rest => rest
  | _, [] => []
  | fuel + 1, c :: rest =>
      if c = squote then
        let pre := rest.takeWhile (fun d => !(d = squote))
        let suf := rest.dropWhile (fun d => !(d = squote))
        match suf with
        | _ :: suf2 => '"' :: pre ++ '"' :: sqGo fuel suf2
        | [] => c :: sqGo fuel rest
      else c :: sqGo fuel rest

def singleQuotesToDouble (s : List Char) : List Char :=
  sqGo (s.length + 1) s

/-- Fix 2: `_fixUnclosedStrings`, a direct port of the character state machine.
`i` is the current index and `stringStart` the index of the opening quote of
the string being tracked (only read while `inString` is true). -/
def fusGo : List Char → Nat → Bool → Bool → Nat → List Char
  | [], _, inString, _, _ => if inString then ['"'] else []
  | c :: rest, i, inString, escapeNext, stringStart =>
      if escapeNext then c :: fusGo rest (i + 1) inString false stringStart
      else if c = '\\' && inString then c :: fusGo rest (i + 1) inString true stringStart
      else if c = '"' then
        if !inString then c :: fusGo rest (i + 1) true false i
        else c :: fusGo rest (i + 1) false false 0
      else if inString && (c = '\n' || c = '\r') then
        '"' :: c :: fusGo rest (i + 1) false false 0
      else if inString && (c = ',' || c = rbrace || c = ']') then
        if i - stringStart > 200 || c = '\n' then
          '"' :: c :: fusGo rest (i + 1) false false 0
        else c :: fusGo rest (i + 1) inString escapeNext stringStart
      else c :: fusGo rest (i + 1) inString escapeNext stringStart

def fixUnclosedStrings (s : List Char) : List Char :=
  fusGo s 0 false false 0

/-- Skip of a `//` comment: the source stops before the newline (which is then
processed as an ordinary character). -/
def skipLineComment (s : List Char) : List Char :=
  s.dropWhile (fun d => !(d = '\n'))

/-- Skip of a `/* ... */` comment.  The source scans `while (i < len - 1)`,
so an unterminated block comment leaves the final character to be processed
as an ordinary character. -/
def skipBlockComment : List Char → List Char
  | [] => []
  | [c] => [c]
  | c1 :: c2 :: rest =>
      if c1 = '*' && c2 = '/' then rest
      else skipBlockComment (c2 :: rest)

/-- Fix 3: `_removeComments` state machine. -/
def rcGo : Nat → Bool → Bool → List Char → List Char
  | 0, _, _, rest => rest
  | _ + 1, _, _, [] => []
  | fuel + 1, inString, escapeNext, c :: rest =>
      if escapeNext then c :: rcGo fuel inString false rest
      else if c = '\\' && inString then c :: rcGo fuel inString true rest
      else if c = '"' then c :: rcGo fuel (!inString) escapeNext rest
      else if inString then c :: rcGo fuel inString escapeNext rest
      else if c = '/' && rest.head? = some '/' then rcGo fuel inString escapeNext (skipLineComment rest.tail)
      else if c = '/' && rest.head? = some '*' then rcGo fuel inString escapeNext (skipBlockComment rest.tail)
      else c :: rcGo fuel inString escapeNext rest

def removeComments (s : List Char) : List Char :=
  rcGo (s.length + 1) false false s

/-- Companion predicate to `rcGo` with the same state stepping: true iff the
scan never meets a `//` or `/*` start while outside a tracked string. -/
def rcClean : Nat → Bool → Bool → List Char → Bool
  | 0, _, _, _ => true
  | _ + 1, _, _, [] => true
  | fuel + 1, inString, escapeNext, c :: rest =>
      if escapeNext then rcClean fuel inString false rest
      else if c = '\\' && inString then rcClean fuel inString true rest
      else if c = '"' then rcClean fuel (!inString) escapeNext rest
      else if inString then rcClean fuel inString escapeNext rest
      else if c = '/' && rest.head? = some '/' then false
      else if c = '/' && rest.head? = some '*' then false
      else rcClean fuel inString escapeNext rest

/-- True iff every `//` and `/*` of the text lies inside a tracked string. -/
def noCommentMarkerOutsideString (s : List Char) : Bool :=
  rcClean (s.length + 1) false false s

/-- Fix 4 scanner: global regex `,(\s*[}\]])` replaced by `$1`. -/
def tcGo : Nat → List Char → List Char
  | 0, rest => rest
  | _, [] => []
  | fuel + 1, c :: rest =>
      if c = ',' then
        let w := rest.takeWhile isWsJS
        let r2 := rest.dropWhile isWsJS
        match r2 with
        | d :: r3 =>
            if d = rbrace || d = ']' then w ++ d :: tcGo fuel r3
            else c :: tcGo fuel rest
        | [] => c :: tcGo fuel rest
      else c :: tcGo fuel rest

def removeTrailingCommas (s : List Char) : List Char :=
  tcGo (s.length + 1) s

/-- Fix 5 scanner: global regex `([{,]\s*)([a-zA-Z_$][a-zA-Z0-9_$]*)(\s*:)`
replaced by `$1"$2"$3`. -/
def uqGo : Nat → List Char → List Char
  | 0, rest => rest
  | _, [] => []
  | fuel + 1, c :: rest =>
      if c = lbrace || c = ',' then
        let w := rest.takeWhile isWsJS
        let r2 := rest.dropWhile isWsJS
        match r2 with
        | d :: r3 =>
            if isIdentStart d then
              let idrest := r3.takeWhile isIdentChar
              let r4 := r3.dropWhile isIdentChar
              let w2 := r4.takeWhile isWsJS
              let r5 := r4.dropWhile isWsJS
              match r5 with
              | e :: r6 =>
                  if e = ':' then
                    c :: w ++ '"' :: d :: idrest ++ '"' :: w2 ++ ':' :: uqGo fuel r6
                  else c :: uqGo fuel rest
              | [] => c :: uqGo fuel rest
            else c :: uqGo fuel rest
        | [] => c :: uqGo fuel rest
      else c :: uqGo fuel rest

def quoteUnquotedKeys (s : List Char) : List Char :=
  uqGo (s.length + 1) s

/-- Whether the last significant token forces a comma before a new value
(`lastToken` is `}`, `]` or `"` in the source). -/
def needComma (lastTok : Option Char) : Bool :=
  lastTok = some rbrace || lastTok = some ']' || lastTok = some '"'

/-- Fix 6: `_addMissingCommas` state machine.  `pending` is the buffered
whitespace, `lastTok` the last significant token. -/
def amcGo : List Char → Bool → Bool → List Char → Option Char → List Char
  | [], _, _, pending, _ => pending
  | c :: rest, inString, escapeNext, pending, lastTok =>
      if escapeNext then c :: amcGo rest inString false pending lastTok
      else if c = '\\' && inString then c :: amcGo rest inString true pending lastTok
      else if c = '"' then
        if !inString then
          (if needComma lastTok then [','] else []) ++ pending ++ c :: amcGo rest true escapeNext [] lastTok
        else c :: amcGo rest false escapeNext pending (some '"')
      else if inString then c :: amcGo rest inString escapeNext pending lastTok
      else if isWsJS c then amcGo rest inString escapeNext (pending ++ [c]) lastTok
      else if c = lbrace || c = '[' then
        (if needComma lastTok then [','] else []) ++ pending ++ c :: amcGo rest inString escapeNext [] (some c)
      else if c = rbrace || c = ']' then pending ++ c :: amcGo rest inString escapeNext [] (some c)
      else if c = ':' || c = ',' then pending ++ c :: amcGo rest inString escapeNext [] (some c)
      else pending ++ c :: amcGo rest inString escapeNext [] lastTok

def addMissingCommas (s : List Char) : List Char :=
  amcGo s false false [] none

/-- Fix 8 test: regex `^"[^"]+"\s*:\s*.+}$` with the `s` flag on the trimmed
text (see the analysis in the doc of the pipeline: after the colon the regex
is equivalent to "ends with `}` and at least two characters remain"). -/
def missingOpeningBraceTest (s : List Char) : Bool :=
  match strTrim s with
  | c :: r1 =>
      if c = '"' then
        let key := r1.takeWhile (fun d => !(d = '"'))
        let r2 := r1.dropWhile (fun d => !(d = '"'))
        match r2 with
        | _ :: r3 =>
            if key.isEmpty then false
            else
              match r3.dropWhile isWsJS with
              | e :: r5 =>
                  if e = ':' then
                    decide (2 ≤ r5.length) && r5.getLast? = some rbrace
                  else false
              | [] => false
        | [] => false
      else false
  | [] => false

/-- Fix 9 scanner: global regex `:\s*0([0-9]+)` replaced by `: $1`
(note the replacement normalises the whitespace to one space and strips a
single leading zero). -/
def lzGo : Nat → List Char → List Char
  | 0, rest => rest
  | _, [] => []
  | fuel + 1, c :: rest =>
      if c = ':' then
        let r2 := rest.dropWhile isWsJS
        match r2 with
        | d :: r3 =>
            if d = '0' then
              let ds := r3.takeWhile isAsciiDigit
              let r4 := r3.dropWhile isAsciiDigit
              if ds.isEmpty then c :: lzGo fuel rest
              else ':' :: ' ' :: ds ++ lzGo fuel r4
            else c :: lzGo fuel rest
        | [] => c :: lzGo fuel rest
      else c :: lzGo fuel rest

def fixLeadingZeros (s : List Char) : List Char :=
  lzGo (s.length + 1) s

/-- Characters that may legally follow a backslash in a JSON string
(the class `["\\/bfnrtu]` of the fix-10 regex). -/
def validEscapeChar (c : Char) : Bool :=
  c = '"' || c = '\\' || c = '/' || c = 'b' || c = 'f' || c = 'n' || c = 'r' || c = 't' || c = 'u'

/-- Index (in `run`) of the last backslash whose follower fails the
escape-char lookahead; `afterRun` is the rest of the input after the maximal
quote-free run (its head, when present, is a quote, which is in the class, so
only the true end of input satisfies the lookahead there). -/
def lastBadBackslash (run afterRun : List Char) : Option Nat :=
  let rec go : List Char → Nat → Option Nat → Option Nat
    | [], _, best => best
    | c :: rest, idx, best =>
        if c = '\\' then
          let bad := match rest.head? with
                     | some d => !validEscapeChar d
                     | none => afterRun.isEmpty
          go rest (idx + 1) (if bad then some idx else best)
        else go rest (idx + 1) best
  go run 0 none

def doubleBackslashes (s : List Char) : List Char :=
  s.flatMap (fun c => if c = '\\' then ['\\', '\\'] else [c])

/-- Fix 10 scanner: global regex `"([^"]*\\(?!["\\/bfnrtu]))` with a callback
doubling every backslash of the captured content. -/
def bsGo : Nat → List Char → List Char
  | 0, rest => rest
  | _, [] => []
  | fuel + 1, c :: rest =>
      if c = '"' then
        let run := rest.takeWhile (fun d => !(d = '"'))
        let afterRun := rest.dropWhile (fun d => !(d = '"'))
        match lastBadBackslash run afterRun with
        | some k =>
            c :: doubleBackslashes (run.take (k + 1)) ++ bsGo fuel (run.drop (k + 1) ++ afterRun)
        | none => c :: bsGo fuel rest
      else c :: bsGo fuel rest

def fixBackslashes (s : List Char) : List Char :=
  bsGo (s.length + 1) s

/-- Fix 11 scanner: global regex `:\s*LIT` replaced by `: null`
(one pass per literal in the source). -/
def litGo (lit : List Char) : Nat → List Char → List Char
  | 0, rest => rest
  | _, [] => []
  | fuel + 1, c :: rest =>
      if c = ':' then
        let r2 := rest.dropWhile isWsJS
        if lit.isPrefixOf r2 then
          ':' :: ' ' :: 'n' :: 'u' :: 'l' :: 'l' :: litGo lit fuel (r2.drop lit.length)
        else c :: litGo lit fuel rest
      else c :: litGo lit fuel rest

def fixLiteral (lit : List Char) (s : List Char) : List Char :=
  litGo lit (s.length + 1) s

end JSONParser

/-- Values produced by the strict JSON decoder (`JSON.parse`).  Numbers keep
their source token; objects keep their fields in source order. -/
inductive JVal where
  | jnull : JVal
  | jbool (b : Bool) : JVal
  | jnum (tok : List Char) : JVal
  | jstr (s : List Char) : JVal
  | jarr (xs : List JVal) : JVal
  | jobj (fields : List (List Char × JVal)) : JVal

namespace JSONParser

/-- JSON grammar whitespace (space, tab, line feed, carriage return). -/
def jsonWs (c : Char) : Bool :=
  c = ' ' || c = '\t' || c = '\n' || c = '\r'

def jpSkipWs (s : List Char) : List Char :=
  s.dropWhile jsonWs

def hexDigitVal (c : Char) : Option Nat :=
  let n := c.toNat
  if isAsciiDigit c then some (n - 48)
  else if n ≥ 97 && n ≤ 102 then some (n - 87)
  else if n ≥ 65 && n ≤ 70 then some (n - 55)
  else none

/-- Strict JSON string body (after the opening quote): decodes escapes,
rejects raw control characters, stops at the closing quote. -/
def jpStringBody : List Char → Option (List Char × List Char)
  | [] => none
  | c :: rest =>
      if c = '"' then some ([], rest)
      else if c = '\\' then
        match rest with
        | [] => none
        | e :: rest2 =>
            if e = '"' || e = '\\' || e = '/' then
              match jpStringBody rest2 with
              | some (tl, rem) => some (e :: tl, rem)
              | none => none
            else if e = 'b' || e = 'f' || e = 'n' || e = 'r' || e = 't' then
              let d : Char :=
                if e = 'b' then '\x08' else if e = 'f' then '\x0c'
                else if e = 'n' then '\n' else if e = 'r' then '\r' else '\t'
              match jpStringBody rest2 with
              | some (tl, rem) => some (d :: tl, rem)
              | none => none
            else if e = 'u' then
              match rest2 with
              | h1 :: h2 :: h3 :: h4 :: rest3 =>
                  match hexDigitVal h1, hexDigitVal h2, hexDigitVal h3, hexDigitVal h4 with
                  | some v1, some v2, some v3, some v4 =>
                      let code := v1 * 4096 + v2 * 256 + v3 * 16 + v4
                      match jpStringBody rest3 with
                      | some (tl, rem) => some (Char.ofNat code :: tl, rem)
                      | none => none
                  | _, _, _, _ => none
              | _ => none
            else none
      else if c.toNat < 32 then none
      else
        match jpStringBody rest with
        | some (tl, rem) => some (c :: tl, rem)
        | none => none

/-- Strict JSON number token: `-? (0 | [1-9][0-9]*) frac? exp?`; returns the
token text. -/
def jpNumber (s : List Char) : Option (List Char × List Char) :=
  let (sign, r1) :=
    match s with
    | c :: r => if c = '-' then (['-'], r) else (([] : List Char), s)
    | [] => ([], s)
  match r1 with
  | [] => none
  | c :: r2 =>
      if !isAsciiDigit c then none
      else
        let (intPart, r3) :=
          if c = '0' then ([c], r2)
          else (c :: r2.takeWhile isAsciiDigit, r2.dropWhile isAsciiDigit)
        let (fracPart, r4) :=
          match r3 with
          | d :: r3b =>
              if d = '.' then
                let ds := r3b.takeWhile isAsciiDigit
                if ds.isEmpty then ([], none)
                else (d :: ds, some (r3b.dropWhile isAsciiDigit))
              else ([], some r3)
          | [] => ([], some r3)
        match r4 with
        | none => none
        | some r5 =>
            let (expPart, r6) :=
              match r5 with
              | e :: r5b =>
                  if e = 'e' || e = 'E' then
                    let (esign, r5c) :=
                      match r5b with
                      | d :: r => if d = '+' || d = '-' then ([d], r) else (([] : List Char), r5b)
                      | [] => ([], r5b)
                    let ds := r5c.takeWhile isAsciiDigit
                    if ds.isEmpty then ([], none)
                    else (e :: esign ++ ds, some (r5c.dropWhile isAsciiDigit))
                  else ([], some r5)
              | [] => ([], some r5)
            match r6 with
            | none => none
            | some r7 => some (sign ++ intPart ++ fracPart ++ expPart, r7)

/-- Member list of an object (after the first key has been seen to start);
`recVal` parses one nested value. -/
def jpMembersGo (recVal : List Char → Option (JVal × List Char)) :
    Nat → List Char → List (List Char × JVal) → Option (JVal × List Char)
  | 0, _, _ => none
  | fuel + 1, s, acc =>
      match s with
      | c :: rest =>
          if c = '"' then
            match jpStringBody rest with
            | some (key, r1) =>
                match jpSkipWs r1 with
                | d :: r2 =>
                    if d = ':' then
                      match recVal (jpSkipWs r2) with
                      | some (v, r3) =>
                          match jpSkipWs r3 with
                          | e :: r4 =>
                              if e = ',' then jpMembersGo recVal fuel (jpSkipWs r4) (acc ++ [(key, v)])
                              else if e = rbrace then some (JVal.jobj (acc ++ [(key, v)]), r4)
                              else none
                          | [] => none
                      | none => none
                    else none
                | [] => none
            | none => none
          else none
      | [] => none

/-- Element list of an array; `recVal` parses one nested value. -/
def jpElementsGo (recVal : List Char → Option (JVal × List Char)) :
    Nat → List Char → List JVal → Option (JVal × List Char)
  | 0, _, _ => none
  | fuel + 1, s, acc =>
      match recVal s with
      | some (v, r1) =>
          match jpSkipWs r1 with
          | e :: r2 =>
              if e = ',' then jpElementsGo recVal fuel (jpSkipWs r2) (acc ++ [v])
              else if e = ']' then some (JVal.jarr (acc ++ [v]), r2)
              else none
          | [] => none
      | none => none

/-- Strict JSON value parser (recursive descent, fuel-indexed). -/
def jpValue : Nat → List Char → Option (JVal × List Char)
  | 0, _ => none
  | fuel + 1, s =>
      match s with
      | [] => none
      | c :: rest =>
          if c = lbrace then
            match jpSkipWs rest with
            | d :: r2 =>
                if d = rbrace then some (JVal.jobj [], r2)
                else jpMembersGo (jpValue fuel) (s.length + 1) (d :: r2) []
            | [] => none
          else if c = '[' then
            match jpSkipWs rest with
            | d :: r2 =>
                if d = ']' then some (JVal.jarr [], r2)
                else jpElementsGo (jpValue fuel) (s.length + 1) (d :: r2) []
            | [] => none
          else if c = '"' then
            match jpStringBody rest with
            | some (str, rem) => some (JVal.jstr str, rem)
            | none => none
          else if c = 't' then
            if ['r', 'u', 'e'].isPrefixOf rest then some (JVal.jbool true, rest.drop 3) else none
          else if c = 'f' then
            if ['a', 'l', 's', 'e'].isPrefixOf rest then some (JVal.jbool false, rest.drop 4) else none
          else if c = 'n' then
            if ['u', 'l', 'l'].isPrefixOf rest then some (JVal.jnull, rest.drop 3) else none
          else if c = '-' || isAsciiDigit c then
            match jpNumber s with
            | some (tok, rem) => some (JVal.jnum tok, rem)
            | none => none
          else none

/-- Model of strict `JSON.parse`: a value surrounded only by whitespace. -/
def jsonParse (s : List Char) : Option JVal :=
  match jpValue (s.length + 1) (jpSkipWs s) with
  | some (v, rest) => if (jpSkipWs rest).isEmpty then some v else none
  | none => none

/-- String value of a field of a parsed object (used to compare payloads). -/
def strValAt (r : Option JVal) (k : List Char) : Option (List Char) :=
  match r with
  | some (JVal.jobj fields) =>
      match fields.lookup k with
      | some (JVal.jstr s) => some s
      | _ => none
  | _ => none

/-- Result of `JSONParser.fix`.  The source record also carries
`data` (equal to the decode of `fixed`, recoverable as `jsonParse fixed`)
and the decoder error object; they are omitted here as derivable. -/
structure JsonFixResult where
  success : Bool
  fixed : List Char
  original : List Char
  fixes : List (List Char)
deriving DecidableEq, Repr

/-- Pipeline stage after fix 1 (single quotes). -/
def afterSingleQuotes (s : List Char) : List Char :=
  singleQuotesToDouble s

/-- Pipeline stage after fix 2 (unclosed strings). -/
def afterUnclosedStrings (s : List Char) : List Char :=
  fixUnclosedStrings (afterSingleQuotes s)

/-- Pipeline stage after fix 3 (comment removal). -/
def afterCommentRemoval (s : List Char) : List Char :=
  removeComments (afterUnclosedStrings s)

/-- Remaining pipeline (fixes 4–11) applied after comment removal, producing
the final fixed text. -/
def lateStages (f3 : List Char) : List Char :=
  let f4 := removeTrailingCommas f3
  let f5 := quoteUnquotedKeys f4
  let f6 := addMissingCommas f5
  let openBraces := f6.count lbrace
  let closeBraces := f6.count rbrace
  let openBrackets := f6.count '['
  let closeBrackets := f6.count ']'
  let f7a := if closeBraces < openBraces then f6 ++ List.replicate (openBraces - closeBraces) rbrace else f6
  let f7 := if closeBrackets < openBrackets then f7a ++ List.replicate (openBrackets - closeBrackets) ']' else f7a
  let f8 := if missingOpeningBraceTest f7 then lbrace :: f7 else f7
  let f9 := fixLeadingZeros f8
  let f10 := fixBackslashes f9
  let f11a := fixLiteral ['N', 'a', 'N'] f10
  let f11b := fixLiteral "Infinity".data f11a
  fixLiteral "undefined".data f11b

/-- Final fixed text of the whole pipeline. -/
def pipeline (s : List Char) : List Char :=
  lateStages (afterCommentRemoval s)

/-- Fix messages of `JSONParser.fix`, in source order (each gated on its
rule having changed the text, as the source pushes a label exactly when its
rewrite fired). -/
def fixMessages (s : List Char) : List (List Char) :=
  let f1 := afterSingleQuotes s
  let m1 : List (List Char) := if f1 = s then [] else ["Converted single quotes to double quotes".data]
  let f2 := fixUnclosedStrings f1
  let m2 : List (List Char) := if f2 = f1 then [] else ["Fixed unclosed strings".data]
  let f3 := removeComments f2
  let m3 : List (List Char) := if f3 = f2 then [] else ["Removed comments".data]
  let f4 := removeTrailingCommas f3
  let m4 : List (List Char) := if f4 = f3 then [] else ["Removed trailing commas".data]
  let f5 := quoteUnquotedKeys f4
  let m5 : List (List Char) := if f5 = f4 then [] else ["Quoted unquoted keys".data]
  let f6 := addMissingCommas f5
  let m6 : List (List Char) := if f6 = f5 then [] else ["Added missing commas between properties".data]
  let openBraces := f6.count lbrace
  let closeBraces := f6.count rbrace
  let openBrackets := f6.count '['
  let closeBrackets := f6.count ']'
  let f7a := if closeBraces < openBraces then f6 ++ List.replicate (openBraces - closeBraces) rbrace else f6
  let m7a : List (List Char) :=
    if closeBraces < openBraces then
      ["Added ".data ++ (Nat.repr (openBraces - closeBraces)).data ++ " missing closing brace(s)".data]
    else []
  let f7 := if closeBrackets < openBrackets then f7a ++ List.replicate (openBrackets - closeBrackets) ']' else f7a
  let m7b : List (List Char) :=
    if closeBrackets < openBrackets then
      ["Added ".data ++ (Nat.repr (openBrackets - closeBrackets)).data ++ " missing closing bracket(s)".data]
    else []
  let f8 := if missingOpeningBraceTest f7 then lbrace :: f7 else f7
  let m8 : List (List Char) := if missingOpeningBraceTest f7 then ["Added missing opening brace".data] else []
  let f9 := fixLeadingZeros f8
  let m9 : List (List Char) := if f9 = f8 then [] else ["Fixed numbers with leading zeros".data]
  let f10 := fixBackslashes f9
  let m10 : List (List Char) := if f10 = f9 then [] else ["Fixed unescaped backslashes".data]
  m1 ++ m2 ++ m3 ++ m4 ++ m5 ++ m6 ++ m7a ++ m7b ++ m8 ++ m9 ++ m10

/-- Model of `JSONParser.fix` (the final text is the full pipeline, the
success flag the strict decode of that text). -/
def fix (s : List Char) : JsonFixResult :=
  { success := (jsonParse (pipeline s)).isSome
    fixed := pipeline s
    original := s
    fixes := fixMessages s }

end JSONParser

/-- Transient tag record produced by the shared tag-scanning regex
`<\/?([a-zA-Z][a-zA-Z0-9:_-]*)[^>]*>` of `src/parsers/xml-parser.js`. -/
structure XmlTag where
  name : List Char
  fullTag : List Char
  position : Nat
  isClosing : Bool
  isSelfClosing : Bool
deriving DecidableEq, Repr

/-- Structural error records of the XML engine (the `type` field of the
source objects; messages are derivable from the payloads). -/
inductive XmlError where
  | unmatched_closing_tag (tag : List Char)
  | mismatched_tags (expected found : List Char)
  | unclosed_tag (tag : List Char)
  | invalid_tag_name
  | text_before_root
  | multiple_roots (roots : List (List Char))
  | missing_opening_tag
deriving DecidableEq, Repr

namespace XMLParser

/-- Name characters of the namespace-aware tag regex `[a-zA-Z0-9:_-]`. -/
def tagNameChar (c : Char) : Bool :=
  isAsciiAlpha c || isAsciiDigit c || c = ':' || c = '_' || c = '-'

/-- Name characters of the colon-free class `[a-zA-Z0-9-_]` used by the
critical-error check and the invalid-tag-name fix. -/
def tagNameCharNC (c : Char) : Bool :=
  isAsciiAlpha c || isAsciiDigit c || c = '-' || c = '_'

/-- Attempt of the tag regex at a position whose character is `<`:
optional `/`, a letter, a run of name characters, a run of non-`>`
characters, then `>`.  Returns the tag data, its length and the rest. -/
def matchTagAt (s : List Char) : Option (XmlTag × Nat × List Char) :=
  match s with
  | c0 :: r0 =>
      if c0 = '<' then
        let (closing, r1) :=
          match r0 with
          | c :: r => if c = '/' then (true, r) else (false, r0)
          | [] => (false, r0)
        match r1 with
        | c :: r2 =>
            if isAsciiAlpha c then
              let nameTail := r2.takeWhile tagNameChar
              let r3 := r2.dropWhile tagNameChar
              let junk := r3.takeWhile (fun d => !(d = '>'))
              let r4 := r3.dropWhile (fun d => !(d = '>'))
              match r4 with
              | g :: r5 =>
                  if g = '>' then
                    let len := 1 + (if closing then 1 else 0) + 1 + nameTail.length + junk.length + 1
                    some ({ name := c :: nameTail
                            fullTag := s.take len
                            position := 0
                            isClosing := closing
                            isSelfClosing := junk.getLast? = some '/' }, len, r5)
                  else none
              | [] => none
            else none
        | [] => none
      else none
  | [] => none

/-- Global scan of the tag regex, recording match positions. -/
def tagScanGo : Nat → Nat → List Char → List XmlTag
  | 0, _, _ => []
  | _, _, [] => []
  | fuel + 1, pos, c :: rest =>
      if c = '<' then
        match matchTagAt (c :: rest) with
        | some (t, len, r2) => { t with position := pos } :: tagScanGo fuel (pos + len) r2
        | none => tagScanGo fuel (pos + 1) rest
      else tagScanGo fuel (pos + 1) rest

def tagScanPos (s : List Char) : List XmlTag :=
  tagScanGo (s.length + 1) 0 s

/-- Removal of processing instructions: global regex `<\?[^?]*\?>`. -/
def piGo : Nat → List Char → List Char
  | 0, rest => rest
  | _, [] => []
  | fuel + 1, c :: rest =>
      if c = '<' && rest.head? = some '?' then
        let r2 := rest.tail.dropWhile (fun d => !(d = '?'))
        match r2 with
        | q :: g :: r3 =>
            if q = '?' && g = '>' then piGo fuel r3
            else c :: piGo fuel rest
        | _ => c :: piGo fuel rest
      else c :: piGo fuel rest

def removePIs (s : List Char) : List Char :=
  piGo (s.length + 1) s

/-- Removal of comments: global lazy regex `<!--[\s\S]*?-->`. -/
def cmGo : Nat → List Char → List Char
  | 0, rest => rest
  | _, [] => []
  | fuel + 1, c :: rest =>
      if "<!--".data.isPrefixOf (c :: rest) then
        let body := (c :: rest).drop 4
        match findSub body "-->".data with
        | some k => cmGo fuel (body.drop (k + 3))
        | none => c :: cmGo fuel rest
      else c :: cmGo fuel rest

def removeXmlComments (s : List Char) : List Char :=
  cmGo (s.length + 1) s

/-- Removal of CDATA sections: global lazy regex `<!\[CDATA\[[\s\S]*?\]\]>`. -/
def cdGo : Nat → List Char → List Char
  | 0, rest => rest
  | _, [] => []
  | fuel + 1, c :: rest =>
      if "<![CDATA[".data.isPrefixOf (c :: rest) then
        let body := (c :: rest).drop 9
        match findSub body "]]>".data with
        | some k => cdGo fuel (body.drop (k + 3))
        | none => c :: cdGo fuel rest
      else c :: cdGo fuel rest

def removeCDATA (s : List Char) : List Char :=
  cdGo (s.length + 1) s

/-- Cleaning step shared by `_validateXMLStructure`, `_detectCriticalErrors`
and `_balanceTags`: strip processing instructions, comments and CDATA. -/
def cleanXmlOf (s : List Char) : List Char :=
  removeCDATA (removeXmlComments (removePIs s))

/-- Stack walk of `_validateXMLStructure` (stack head is the top; the
source array iterates unclosed tags bottom-first, hence the reverse). -/
def vxGo : List XmlTag → List (List Char) → List XmlError → List XmlError
  | [], stack, errs => errs ++ stack.reverse.map (fun t => XmlError.unclosed_tag t)
  | t :: rest, stack, errs =>
      if t.isClosing then
        match stack with
        | [] => vxGo rest [] (errs ++ [XmlError.unmatched_closing_tag t.name])
        | top :: stail =>
            if top = t.name then vxGo rest stail errs
            else vxGo rest stail (errs ++ [XmlError.mismatched_tags top t.name])
      else if !t.isSelfClosing then vxGo rest (t.name :: stack) errs
      else vxGo rest stack errs

structure XmlParseResult where
  success : Bool
  dat : Option (List Char)
  errors : List XmlError
deriving DecidableEq, Repr

/-- Model of `_validateXMLStructure` (the Node.js branch of `parse`, which
this embedding takes as the strict parser of the engine). -/
def validateXMLStructure (s : List Char) : XmlParseResult :=
  let errs := vxGo (tagScanPos (cleanXmlOf s)) [] []
  { success := errs.isEmpty
    dat := if errs.isEmpty then some s else none
    errors := errs }

/-- Model of `parse` in the Node.js environment. -/
def parse (s : List Char) : XmlParseResult :=
  validateXMLStructure s

def parseOk (s : List Char) : Bool :=
  (parse s).success

/-! Critical-error detection (`_detectCriticalErrors`). -/

/-- Single replace of the anchored regex `^<\?xml[^?]*\?>\s*` by nothing. -/
def stripDeclPrefix (t : List Char) : List Char :=
  if "<?xml".data.isPrefixOf t then
    let r2 := (t.drop 5).dropWhile (fun d => !(d = '?'))
    match r2 with
    | q :: g :: r3 => if q = '?' && g = '>' then r3.dropWhile isWsJS else t
    | _ => t
  else t

/-- Existence of a match of `<([a-zA-Z][a-zA-Z0-9-_]*)\s+([a-zA-Z][a-zA-Z0-9-_]*)[^=]`
(with the regex backtracking resolved: when `[^=]` has no viable character the
second name run donates its last character). -/
def tsGo : Nat → List Char → Bool
  | 0, _ => false
  | _, [] => false
  | fuel + 1, c :: rest =>
      if c = '<' then
        match rest with
        | d :: r1 =>
            if isAsciiAlpha d then
              let r2 := r1.dropWhile tagNameCharNC
              if (r2.takeWhile isWsJS).isEmpty then tsGo fuel rest
              else
                match r2.dropWhile isWsJS with
                | e :: r3 =>
                    if isAsciiAlpha e then
                      let run2 := r3.takeWhile tagNameCharNC
                      let r4 := r3.dropWhile tagNameCharNC
                      let cond := (match r4.head? with
                                   | some f => !(f = '=')
                                   | none => false) || !run2.isEmpty
                      if cond then true else tsGo fuel rest
                    else tsGo fuel rest
                | [] => tsGo fuel rest
            else tsGo fuel rest
        | [] => tsGo fuel rest
      else tsGo fuel rest

def tagSpaceCheck (s : List Char) : Bool :=
  tsGo (s.length + 1) s

/-- Existence of a match of `<[^>]+=`. -/
def hasAttrCheck : List Char → Bool
  | [] => false
  | c :: rest =>
      (c = '<' && (((rest.takeWhile (fun d => !(d = '>'))).drop 1).contains '=')) || hasAttrCheck rest

/-- Index of the first match of `<[a-zA-Z...]` (only its start matters). -/
def firstTagIdx : List Char → Nat → Option Nat
  | [], _ => none
  | c :: rest, i =>
      if c = '<' && (match rest.head? with
                     | some d => isAsciiAlpha d
                     | none => false) then some i
      else firstTagIdx rest (i + 1)

/-- Depth-0 opening tags of the cleaned document (check 3 of
`_detectCriticalErrors`; the depth may go negative, as in the source). -/
def rootsGo : List XmlTag → Int → List (List Char) → List (List Char)
  | [], _, acc => acc
  | t :: rest, depth, acc =>
      if !t.isClosing && !t.isSelfClosing then
        rootsGo rest (depth + 1) (if depth = 0 then acc ++ [t.name] else acc)
      else if t.isClosing then rootsGo rest (depth - 1) acc
      else rootsGo rest depth acc

/-- Existence of a match of `<[a-zA-Z0-9]`. -/
def hasAlnumTagStart : List Char → Bool
  | [] => false
  | c :: rest =>
      (c = '<' && (match rest.head? with
                   | some d => isAsciiAlpha d || isAsciiDigit d
                   | none => false)) || hasAlnumTagStart rest

/-- Model of `_detectCriticalErrors`. -/
def detectCriticalErrors (s : List Char) : List XmlError :=
  let withoutDecl := stripDeclPrefix (strTrim s)
  let e1 : List XmlError :=
    if tagSpaceCheck withoutDecl && !hasAttrCheck withoutDecl then [XmlError.invalid_tag_name] else []
  let e2 : List XmlError :=
    match firstTagIdx withoutDecl 0 with
    | some i =>
        let before := strTrim (withoutDecl.take i)
        if (strTrim (removeXmlComments (removePIs before))).isEmpty then []
        else [XmlError.text_before_root]
    | none => []
  let roots := rootsGo (tagScanPos (cleanXmlOf withoutDecl)) 0 []
  let e3 : List XmlError := if 1 < roots.length then [XmlError.multiple_roots roots] else []
  let startsWithClosing := "</".data.isPrefixOf (withoutDecl.dropWhile isWsJS)
  let hasNoOpeningTag := !hasAlnumTagStart withoutDecl && containsSub withoutDecl "</".data
  let e4 : List XmlError := if startsWithClosing || hasNoOpeningTag then [XmlError.missing_opening_tag] else []
  e1 ++ e2 ++ e3 ++ e4

/-! Tag-similarity heuristic (`_isSimilarTag`, `_levenshteinDistance`). -/

/-- Cell `dp[i][j]` of the Levenshtein table of the source, as a fuel-indexed
recursion on the indices (the fuel never runs out for `fuel > i + j`). -/
def levCell (s1 s2 : List Char) : Nat → Nat → Nat → Nat
  | 0, _, _ => 0
  | _ + 1, 0, j => j
  | _ + 1, i + 1, 0 => i + 1
  | fuel + 1, i + 1, j + 1 =>
      if s1.get? i == s2.get? j then levCell s1 s2 fuel i j
      else
        min (levCell s1 s2 fuel i (j + 1) + 1)
          (min (levCell s1 s2 fuel (i + 1) j + 1) (levCell s1 s2 fuel i j + 1))

def levenshteinDistance (s1 s2 : List Char) : Nat :=
  levCell s1 s2 (s1.length + s2.length + 1) s1.length s2.length

/-- Test of the escaped pattern `^base[0-9]+$` on `actual`: `actual` is
`base` followed by a non-empty purely numeric suffix. -/
def numericSuffixOf (base actual : List Char) : Bool :=
  base.isPrefixOf actual &&
    (let d := actual.drop base.length
     !d.isEmpty && d.all isAsciiDigit)

/-- Model of `_isSimilarTag`. -/
def isSimilarTag (expected actual : List Char) : Bool :=
  if expected = actual then true
  else if expected ++ ['s'] = actual ∨ expected = actual ++ ['s'] then false
  else if numericSuffixOf expected actual then true
  else if numericSuffixOf actual expected then true
  else decide (levenshteinDistance expected actual ≤ 1)

/-- Tag-name similarity as worded by the spec (reference definition for the
characterization claim): the names are not a plural/singular pair, and either
one is the other with a purely-numeric suffix appended or their Levenshtein
distance is at most 1. -/
def similarPerSpec (expected actual : List Char) : Bool :=
  (!(decide (expected ++ ['s'] = actual ∨ expected = actual ++ ['s']))) &&
    (numericSuffixOf expected actual || numericSuffixOf actual expected ||
      decide (levenshteinDistance expected actual ≤ 1))

/-! Mismatched-closing-tag correction (`_fixMismatchedTags`). -/

structure OpenTag where
  name : List Char
  position : Nat
deriving DecidableEq, Repr

structure TagRep where
  position : Nat
  oldTag : List Char
  newTag : List Char
  original : List Char
  corrected : List Char
deriving DecidableEq, Repr

def closeTagOf (name : List Char) : List Char :=
  '<' :: '/' :: name ++ ['>']

/-- Ranges (start, one-past-end) of matches of the processing-instruction
regex, for the skip logic of `_fixMismatchedTags`. -/
def piRangesGo : Nat → Nat → List Char → List (Nat × Nat)
  | 0, _, _ => []
  | _, _, [] => []
  | fuel + 1, pos, c :: rest =>
      if c = '<' && rest.head? = some '?' then
        let body := rest.tail.takeWhile (fun d => !(d = '?'))
        let r2 := rest.tail.dropWhile (fun d => !(d = '?'))
        match r2 with
        | q :: g :: r3 =>
            if q = '?' && g = '>' then
              let len := 2 + body.length + 2
              (pos, pos + len) :: piRangesGo fuel (pos + len) r3
            else piRangesGo fuel (pos + 1) rest
        | _ => piRangesGo fuel (pos + 1) rest
      else piRangesGo fuel (pos + 1) rest

/-- Ranges of matches of the comment regex. -/
def cmRangesGo : Nat → Nat → List Char → List (Nat × Nat)
  | 0, _, _ => []
  | _, _, [] => []
  | fuel + 1, pos, c :: rest =>
      if "<!--".data.isPrefixOf (c :: rest) then
        let body := (c :: rest).drop 4
        match findSub body "-->".data with
        | some k =>
            let len := 4 + k + 3
            (pos, pos + len) :: cmRangesGo fuel (pos + len) (body.drop (k + 3))
        | none => cmRangesGo fuel (pos + 1) rest
      else cmRangesGo fuel (pos + 1) rest

/-- Ranges of matches of the CDATA regex. -/
def cdRangesGo : Nat → Nat → List Char → List (Nat × Nat)
  | 0, _, _ => []
  | _, _, [] => []
  | fuel + 1, pos, c :: rest =>
      if "<![CDATA[".data.isPrefixOf (c :: rest) then
        let body := (c :: rest).drop 9
        match findSub body "]]>".data with
        | some k =>
            let len := 9 + k + 3
            (pos, pos + len) :: cdRangesGo fuel (pos + len) (body.drop (k + 3))
        | none => cdRangesGo fuel (pos + 1) rest
      else cdRangesGo fuel (pos + 1) rest

/-- Skip ranges of `_fixMismatchedTags` (CDATA, comments, PIs). -/
def skipRangesOf (s : List Char) : List (Nat × Nat) :=
  cdRangesGo (s.length + 1) 0 s ++ cmRangesGo (s.length + 1) 0 s ++ piRangesGo (s.length + 1) 0 s

def shouldSkip (ranges : List (Nat × Nat)) (pos : Nat) : Bool :=
  ranges.any (fun r => decide (r.1 ≤ pos) && decide (pos < r.2))

def mismatchMsg (found expected : List Char) : List Char :=
  "Fixed mismatched tag: </".data ++ found ++ "> → </".data ++ expected ++ [rangle]
where rangle : Char := '>'

/-- Stack walk of `_fixMismatchedTags`: collects in-place replacements of
typo closing tags (a non-similar mismatch leaves the stack untouched). -/
def mmGo (skip : Nat → Bool) :
    List XmlTag → List OpenTag → List TagRep → List (List Char) → List TagRep × List (List Char)
  | [], _, reps, fxs => (reps, fxs)
  | t :: rest, stack, reps, fxs =>
      if skip t.position then mmGo skip rest stack reps fxs
      else if t.name.head? = some '?' || t.name.head? = some '!' then mmGo skip rest stack reps fxs
      else if t.isClosing then
        match stack with
        | [] => mmGo skip rest [] reps fxs
        | top :: stail =>
            if top.name = t.name then mmGo skip rest stail reps fxs
            else if isSimilarTag top.name t.name then
              mmGo skip rest stail
                (reps ++ [{ position := t.position
                            oldTag := t.fullTag
                            newTag := closeTagOf top.name
                            original := t.name
                            corrected := top.name }])
                (fxs ++ [mismatchMsg t.name top.name])
            else mmGo skip rest stack reps fxs
      else if !t.isSelfClosing then
        mmGo skip rest ({ name := t.name, position := t.position } :: stack) reps fxs
      else mmGo skip rest stack reps fxs

/-- Replacements collected by the mismatched-tag pass on a document. -/
def mismatchedReplacements (s : List Char) : List TagRep :=
  (mmGo (shouldSkip (skipRangesOf s)) (tagScanPos s) [] [] []).1

def mismatchedFixMsgs (s : List Char) : List (List Char) :=
  (mmGo (shouldSkip (skipRangesOf s)) (tagScanPos s) [] [] []).2

/-- Application of the replacements in reverse order (as in the source, so
earlier offsets stay valid). -/
def applyRepsRev (reps : List TagRep) (s : List Char) : List Char :=
  reps.reverse.foldl
    (fun acc rep => acc.take rep.position ++ rep.newTag ++ acc.drop (rep.position + rep.oldTag.length)) s

structure XmlPassResult where
  xml : List Char
  fixes : List (List Char)
deriving DecidableEq, Repr

/-- Model of `_fixMismatchedTags`. -/
def fixMismatchedTags (s : List Char) : XmlPassResult :=
  { xml := applyRepsRev (mismatchedReplacements s) s
    fixes := mismatchedFixMsgs s }

/-! Unclosed-tag repair (`_fixUnclosedTags`). -/

structure TagIns where
  position : Nat
  name : List Char
deriving DecidableEq, Repr

/-- Rendered insertion text `</name>` (the source re-extracts the name from
this text with `/<\/(.*)>/`, which yields the name again). -/
def insTag (i : TagIns) : List Char :=
  closeTagOf i.name

/-- Stack walk of `_fixUnclosedTags`.  On a closing tag found deeper in the
stack, the source loop `while (tagStack.length > indexInStack)` pops every
tag above the match and the match itself (pushing an insertion for each) and
the trailing `pop()` removes one further entry when present. -/
def futGo : List XmlTag → List OpenTag → List TagIns → List OpenTag × List TagIns
  | [], stack, ins => (stack, ins)
  | t :: rest, stack, ins =>
      if t.isClosing then
        match stack with
        | [] => futGo rest [] ins
        | top :: stail =>
            if top.name = t.name then futGo rest stail ins
            else
              match stack.findIdx? (fun o => o.name = t.name) with
              | some d =>
                  let popped := stack.take (d + 1)
                  futGo rest ((stack.drop (d + 1)).tail)
                    (ins ++ popped.map (fun o => { position := t.position, name := o.name }))
              | none => futGo rest stack ins
      else if !t.isSelfClosing then
        futGo rest ({ name := t.name, position := t.position } :: stack) ins
      else futGo rest stack ins

/-- Stable insertion into a position-descending list (model of the stable
JS `sort((a, b) => b.position - a.position)`). -/
def insertDesc (a : TagIns) : List TagIns → List TagIns
  | [] => [a]
  | b :: t => if b.position ≤ a.position then a :: b :: t else b :: insertDesc a t

def sortInsDesc : List TagIns → List TagIns
  | [] => []
  | a :: t => insertDesc a (sortInsDesc t)

structure UnclosedResult where
  unclosedTags : List (List Char)
  fixedXml : List Char
deriving DecidableEq, Repr

/-- Model of `_fixUnclosedTags`.  Note that the source filter
`tagName.match(/^[?!]/)` can never fire (tag names start with a letter), and
that `unclosedTags` is read off the array after the in-place sort. -/
def fixUnclosedTags (s : List Char) : UnclosedResult :=
  let tags := (tagScanPos s).filter
    (fun t => !(t.name.head? = some '?' || t.name.head? = some '!'))
  let walked := futGo tags [] []
  let ins2 := walked.2 ++ walked.1.map (fun o => { position := s.length, name := o.name })
  let sorted := sortInsDesc ins2
  let fixedXml := sorted.foldl
    (fun acc i => acc.take i.position ++ insTag i ++ '\n' :: acc.drop i.position) s
  { unclosedTags := sorted.map (fun i => i.name), fixedXml := fixedXml }

/-! Entity escaping in text content (`_escapeSpecialChars`). -/

def placeholderStr (i : Nat) : List Char :=
  "__CDATA_PLACEHOLDER_".data ++ (Nat.repr i).data ++ "__".data

/-- Replacement of every CDATA section by a numbered placeholder, collecting
the sections. -/
def cdataCollectGo : Nat → Nat → List Char → List Char × List (List Char)
  | 0, _, rest => (rest, [])
  | _, _, [] => ([], [])
  | fuel + 1, idx, c :: rest =>
      if "<![CDATA[".data.isPrefixOf (c :: rest) then
        let body := (c :: rest).drop 9
        match findSub body "]]>".data with
        | some k =>
            let sec := (c :: rest).take (9 + k + 3)
            let r := cdataCollectGo fuel (idx + 1) (body.drop (k + 3))
            (placeholderStr idx ++ r.1, sec :: r.2)
        | none =>
            let r := cdataCollectGo fuel idx rest
            (c :: r.1, r.2)
      else
        let r := cdataCollectGo fuel idx rest
        (c :: r.1, r.2)

/-- Global regex `&(?!(amp|lt|gt|quot|apos);)` replaced by `&amp;`. -/
def ampEscape : List Char → List Char
  | [] => []
  | c :: rest =>
      if c = '&' then
        if "amp;".data.isPrefixOf rest || "lt;".data.isPrefixOf rest ||
            "gt;".data.isPrefixOf rest || "quot;".data.isPrefixOf rest ||
            "apos;".data.isPrefixOf rest then
          c :: ampEscape rest
        else '&' :: 'a' :: 'm' :: 'p' :: ';' :: ampEscape rest
      else c :: ampEscape rest

def escLtAll (s : List Char) : List Char :=
  s.flatMap (fun c => if c = '<' then "&lt;".data else [c])

def escGtAll (s : List Char) : List Char :=
  s.flatMap (fun c => if c = '>' then "&gt;".data else [c])

/-- Global regex `>([^<]*)<` with the escaping callback (segments holding a
CDATA placeholder are kept untouched). -/
def segGo : Nat → List Char → List Char
  | 0, rest => rest
  | _, [] => []
  | fuel + 1, c :: rest =>
      if c = '>' then
        let text := rest.takeWhile (fun d => !(d = '<'))
        match rest.dropWhile (fun d => !(d = '<')) with
        | _ :: r2 =>
            let seg :=
              if containsSub text "__CDATA_PLACEHOLDER_".data then text
              else escGtAll (escLtAll (ampEscape text))
            '>' :: seg ++ '<' :: segGo fuel r2
        | [] => c :: segGo fuel rest
      else c :: segGo fuel rest

/-- Model of `_escapeSpecialChars`.  The CDATA restore is modelled as a
literal first-occurrence splice; the source restores with
`String.replace(placeholder, cdata)`, whose replacement string would expand
JS dollar patterns occurring in the CDATA body, so the model agrees with the
source on every document whose CDATA sections are free of dollar signs (as
are all inputs considered here). -/
def escapeSpecialChars (s : List Char) : List Char :=
  let collected := cdataCollectGo (s.length + 1) 0 s
  let escaped := segGo (collected.1.length + 1) collected.1
  (collected.2.enum).foldl (fun acc p => replaceFirst acc (placeholderStr p.1) p.2) escaped

/-! Attribute repairs (fixes 4, 5 and 7 of the pipeline). -/

/-- Attribute-name characters `[a-zA-Z-]`. -/
def attrNameChar (c : Char) : Bool :=
  isAsciiAlpha c || c = '-'

/-- Index of the last `>` of a list, if any. -/
def lastIdxOfGt (l : List Char) : Option Nat :=
  let rec go : List Char → Nat → Option Nat → Option Nat
    | [], _, best => best
    | c :: rest, idx, best => go rest (idx + 1) (if c = '>' then some idx else best)
  go l 0 none

/-- Fix 4 scanner: global regex `(\s[a-zA-Z-]+)="([^"]*>)` with the callback
inserting a closing quote before the first `>` of the captured value.  The
greedy `[^"]*` makes the value run to the last `>` of the quote-free run. -/
def auqGo : Nat → List Char → List Char
  | 0, rest => rest
  | _, [] => []
  | fuel + 1, c :: rest =>
      if isWsJS c then
        let nm := rest.takeWhile attrNameChar
        if nm.isEmpty then c :: auqGo fuel rest
        else
          match rest.drop nm.length with
          | e :: q :: r3 =>
              if e = '=' && q = '"' then
                let run := r3.takeWhile (fun d => !(d = '"'))
                let afterRun := r3.dropWhile (fun d => !(d = '"'))
                match lastIdxOfGt run with
                | some k =>
                    let value := run.take (k + 1)
                    c :: nm ++ '=' :: '"' :: replaceFirst value ['>'] ['"', '>'] ++
                      auqGo fuel (run.drop (k + 1) ++ afterRun)
                | none => c :: auqGo fuel rest
              else c :: auqGo fuel rest
          | _ => c :: auqGo fuel rest
      else c :: auqGo fuel rest

def attrUnclosedQuoteFix (s : List Char) : List Char :=
  auqGo (s.length + 1) s

/-- Tail attempt for fix 5: `\s+ [a-zA-Z-]+ \s+ "..."` at a given suffix. -/
def meqTry (suffix : List Char) :
    Option (List Char × List Char × List Char × List Char) :=
  let w1 := suffix.takeWhile isWsJS
  if w1.isEmpty then none
  else
    let r1 := suffix.dropWhile isWsJS
    let nm := r1.takeWhile attrNameChar
    if nm.isEmpty then none
    else
      let r2 := r1.drop nm.length
      if (r2.takeWhile isWsJS).isEmpty then none
      else
        match r2.dropWhile isWsJS with
        | q :: r3 =>
            if q = '"' then
              let content := r3.takeWhile (fun d => !(d = '"'))
              match r3.dropWhile (fun d => !(d = '"')) with
              | _ :: r4 => some (w1, nm, content, r4)
              | [] => none
            else none
        | [] => none

/-- Search for the largest split position (the greedy `[^>]*` of the fix-5
regex tries the longest prefix first). -/
def meqSearch (rest : List Char) :
    Nat → Option (Nat × (List Char × List Char × List Char × List Char))
  | 0 =>
      match meqTry rest with
      | some p => some (0, p)
      | none => none
  | j + 1 =>
      match meqTry (rest.drop (j + 1)) with
      | some p => some (j + 1, p)
      | none => meqSearch rest j

/-- Fix 5 scanner: global regex `(<[^>]*\s+)([a-zA-Z-]+)\s+"([^"]*)"`
replaced by `$1$2="$3"`. -/
def meqGo : Nat → List Char → List Char
  | 0, rest => rest
  | _, [] => []
  | fuel + 1, c :: rest =>
      if c = '<' then
        let bound := (rest.takeWhile (fun d => !(d = '>'))).length
        match meqSearch rest bound with
        | some (j, (w1, nm, content, r4)) =>
            '<' :: rest.take j ++ w1 ++ nm ++ '=' :: '"' :: content ++ '"' ::
              meqGo fuel r4
        | none => c :: meqGo fuel rest
      else c :: meqGo fuel rest

def missingEqualsFix (s : List Char) : List Char :=
  meqGo (s.length + 1) s

/-- Tail attempt for fix 7: `\s+ [a-zA-Z-]+ = [^"\s>]+ (?=[\s>])`. -/
def aqTry (suffix : List Char) :
    Option (List Char × List Char × List Char × List Char) :=
  let w1 := suffix.takeWhile isWsJS
  if w1.isEmpty then none
  else
    let r1 := suffix.dropWhile isWsJS
    let nm := r1.takeWhile attrNameChar
    if nm.isEmpty then none
    else
      match r1.drop nm.length with
      | e :: r3 =>
          if e = '=' then
            let value := r3.takeWhile (fun d => !(d = '"' || isWsJS d || d = '>'))
            if value.isEmpty then none
            else
              let r4 := r3.drop value.length
              match r4.head? with
              | some d => if isWsJS d || d = '>' then some (w1, nm, value, r4) else none
              | none => none
          else none
      | [] => none

/-- Split search for fix 7 (`[^>]+` needs at least one character, so the
split position is at least 1). -/
def aqSearch (rest : List Char) :
    Nat → Option (Nat × (List Char × List Char × List Char × List Char))
  | 0 => none
  | j + 1 =>
      match aqTry (rest.drop (j + 1)) with
      | some p => some (j + 1, p)
      | none => aqSearch rest j

/-- Fix 7 scanner: global regex `(<[^>]+\s+)([a-zA-Z-]+)=([^"\s>]+)(?=[\s>])`
replaced by `$1$2="$3"` (the lookahead character is not consumed). -/
def aqGo : Nat → List Char → List Char
  | 0, rest => rest
  | _, [] => []
  | fuel + 1, c :: rest =>
      if c = '<' then
        let bound := (rest.takeWhile (fun d => !(d = '>'))).length
        match aqSearch rest bound with
        | some (j, (w1, nm, value, r4)) =>
            '<' :: rest.take j ++ w1 ++ nm ++ '=' :: '"' :: value ++ '"' ::
              aqGo fuel r4
        | none => c :: aqGo fuel rest
      else c :: aqGo fuel rest

def attrQuoteAddFix (s : List Char) : List Char :=
  aqGo (s.length + 1) s

/-- Fix 8 scanner, opening form: global regex `<([0-9][a-zA-Z0-9-_]*)`
replaced by `<tag$1`. -/
def dtOpenGo : Nat → List Char → List Char
  | 0, rest => rest
  | _, [] => []
  | fuel + 1, c :: rest =>
      if c = '<' then
        match rest with
        | d :: r1 =>
            if isAsciiDigit d then
              let nmTail := r1.takeWhile tagNameCharNC
              '<' :: 't' :: 'a' :: 'g' :: d :: nmTail ++ dtOpenGo fuel (r1.drop nmTail.length)
            else c :: dtOpenGo fuel rest
        | [] => c :: dtOpenGo fuel rest
      else c :: dtOpenGo fuel rest

/-- Fix 8 scanner, closing form: global regex `<\/([0-9][a-zA-Z0-9-_]*)`
replaced by `</tag$1`. -/
def dtCloseGo : Nat → List Char → List Char
  | 0, rest => rest
  | _, [] => []
  | fuel + 1, c :: rest =>
      if c = '<' then
        match rest with
        | e :: d :: r1 =>
            if e = '/' && isAsciiDigit d then
              let nmTail := r1.takeWhile tagNameCharNC
              '<' :: '/' :: 't' :: 'a' :: 'g' :: d :: nmTail ++ dtCloseGo fuel (r1.drop nmTail.length)
            else c :: dtCloseGo fuel rest
        | _ => c :: dtCloseGo fuel rest
      else c :: dtCloseGo fuel rest

def invalidTagNameFix (s : List Char) : List Char :=
  dtCloseGo (s.length + 1) (dtOpenGo (s.length + 1) s)

/-! Residual balance sweep (`_balanceTags`). -/

def removedMsg (name : List Char) : List Char :=
  "Removed unmatched closing tag </".data ++ name ++ [gtc]
where gtc : Char := '>'

def balMismatchMsg (expected found : List Char) : List Char :=
  "Fixed mismatched tags: expected </".data ++ expected ++ ">, found </".data ++ found ++ [gtc]
where gtc : Char := '>'

/-- Stack walk of `_balanceTags` over the cleaned document; an unmatched
closing tag removes the first occurrence of its literal text from the
evolving raw document. -/
def btGo : List XmlTag → List (List Char) → List Char → List (List Char) → List Char × List (List Char)
  | [], _, bal, fxs => (bal, fxs)
  | t :: rest, stack, bal, fxs =>
      if t.isClosing then
        match stack with
        | [] => btGo rest [] (replaceFirst bal t.fullTag []) (fxs ++ [removedMsg t.name])
        | top :: stail =>
            if top = t.name then btGo rest stail bal fxs
            else btGo rest stail bal (fxs ++ [balMismatchMsg top t.name])
      else if !t.isSelfClosing then btGo rest (t.name :: stack) bal fxs
      else btGo rest stack bal fxs

/-- Model of `_balanceTags`. -/
def balanceTags (s : List Char) : XmlPassResult :=
  let walked := btGo (tagScanPos (cleanXmlOf s)) [] s []
  { xml := walked.1, fixes := walked.2 }

/-! The `fix` pipeline. -/

structure XmlFixResult where
  success : Bool
  fixed : List Char
  original : List Char
  fixes : List (List Char)
  errors : List XmlError
  canTryAI : Bool
deriving DecidableEq, Repr

def xmlDecl : List Char :=
  "<?xml version=\"1.0\" encoding=\"UTF-8\"?>".data

def unclosedMsg (names : List (List Char)) : List Char :=
  "Fixed ".data ++ (Nat.repr names.length).data ++ " unclosed tag(s): ".data ++
    List.intercalate ", ".data names

/-- Fixed text of the main branch of `XMLParser.fix` (no critical error):
the ordered rule passes of the source. -/
def fixedMain (s : List Char) : List Char :=
    let hasDecl := "<?xml".data.isPrefixOf (strTrim s)
    let f1 := if hasDecl then s else xmlDecl ++ '\n' :: s
    let mm := fixMismatchedTags f1
    let f2 := if mm.fixes.isEmpty then f1 else mm.xml
    let ut := fixUnclosedTags f2
    let f3 := if ut.unclosedTags.isEmpty then f2 else ut.fixedXml
    let f4 := attrUnclosedQuoteFix f3
    let f5 := missingEqualsFix f4
    let f6 := escapeSpecialChars f5
    let f7 := attrQuoteAddFix f6
    let f8 := invalidTagNameFix f7
    let bt := balanceTags f8
    if bt.fixes.isEmpty then f8 else bt.xml

/-- Fix messages of the main branch, each gated exactly as in the source. -/
def fixMainMsgs (s : List Char) : List (List Char) :=
    let hasDecl := "<?xml".data.isPrefixOf (strTrim s)
    let f1 := if hasDecl then s else xmlDecl ++ '\n' :: s
    let m1 : List (List Char) := if hasDecl then [] else ["Added XML declaration".data]
    let mm := fixMismatchedTags f1
    let f2 := if mm.fixes.isEmpty then f1 else mm.xml
    let ut := fixUnclosedTags f2
    let f3 := if ut.unclosedTags.isEmpty then f2 else ut.fixedXml
    let m3 : List (List Char) :=
      if ut.unclosedTags.isEmpty then [] else [unclosedMsg ut.unclosedTags]
    let f4 := attrUnclosedQuoteFix f3
    let m4 : List (List Char) := if f4 = f3 then [] else ["Fixed unclosed attribute quotes".data]
    let f5 := missingEqualsFix f4
    let m5 : List (List Char) := if f5 = f4 then [] else ["Fixed missing equals in attributes".data]
    let f6 := escapeSpecialChars f5
    let m6 : List (List Char) := if f6 = f5 then [] else ["Escaped special characters in text content".data]
    let f7 := attrQuoteAddFix f6
    let m7 : List (List Char) := if f7 = f6 then [] else ["Added quotes to unquoted attributes".data]
    let f8 := invalidTagNameFix f7
    let m8 : List (List Char) := if f8 = f7 then [] else ["Fixed invalid tag names".data]
    let bt := balanceTags f8
    m1 ++ mm.fixes ++ m3 ++ m4 ++ m5 ++ m6 ++ m7 ++ m8 ++ bt.fixes

/-- Main branch of `XMLParser.fix`: final strict re-parse of the fixed
text decides success. -/
def fixMain (s : List Char) : XmlFixResult :=
  { success := (validateXMLStructure (fixedMain s)).success
    fixed := fixedMain s
    original := s
    fixes := fixMainMsgs s
    errors := (validateXMLStructure (fixedMain s)).errors
    canTryAI := !(validateXMLStructure (fixedMain s)).success }

/-- Model of `XMLParser.fix` without AI options (the generative fallback is
an out-of-scope collaborator; with `useAI` unset both AI branches are dead). -/
def fix (s : List Char) : XmlFixResult :=
  if detectCriticalErrors s = [] then fixMain s
  else
    { success := false
      fixed := s
      original := s
      fixes := []
      errors := detectCriticalErrors s
      canTryAI := true }

end XMLParser

/-!
Helper lemmas (shared by the claim theorems below).
-/

/-- The comment-removal scan copies its input verbatim whenever the
companion cleanliness scan reports no comment start outside a string. -/
theorem rcGo_eq_of_clean :
    ∀ (fuel : Nat) (inString escapeNext : Bool) (s : List Char),
    JSONParser.rcClean fuel inString escapeNext s = true →
    JSONParser.rcGo fuel inString escapeNext s = s := by
  intro fuel
  induction fuel with
  | zero => intro inString escapeNext s _; rfl
  | succ f ih =>
    intro inString escapeNext s h
    cases s with
    | nil => rfl
    | cons c rest =>
      simp only [JSONParser.rcClean] at h
      simp only [JSONParser.rcGo]
      split_ifs at h ⊢ with h1 h2 h3 h4 h5 h6 <;> rw [ih _ _ _ h]

/-- Diagonal cells of the Levenshtein table of a string against itself are
zero. -/
theorem levCell_self (l : List Char) :
    ∀ (fuel i : Nat), XMLParser.levCell l l fuel i i = 0 := by
  intro fuel
  induction fuel with
  | zero => intro i; rfl
  | succ f ih =>
    intro i
    cases i with
    | zero => rfl
    | succ j =>
      simp only [XMLParser.levCell, beq_self_eq_true, if_true]
      exact ih j

theorem levenshteinDistance_self (l : List Char) :
    XMLParser.levenshteinDistance l l = 0 :=
  levCell_self l _ _

theorem append_s_ne (l : List Char) : ¬(l ++ ['s'] = l) := by
  intro h
  have := congrArg List.length h
  simp at this

theorem ne_append_s (l : List Char) : ¬(l = l ++ ['s']) := by
  intro h
  exact append_s_ne l h.symm

/-- Every replacement produced by the mismatched-tag walk passed the
similarity gate (invariant of `mmGo`). -/
theorem mmGo_reps_similar (skip : Nat → Bool) :
    ∀ (tags : List XmlTag) (stack : List XMLParser.OpenTag)
      (reps : List XMLParser.TagRep) (fxs : List (List Char)),
    (∀ r ∈ reps, XMLParser.isSimilarTag r.corrected r.original = true) →
    ∀ r ∈ (XMLParser.mmGo skip tags stack reps fxs).1,
      XMLParser.isSimilarTag r.corrected r.original = true := by
  intro tags
  induction tags with
  | nil => intro stack reps fxs hreps r hr; exact hreps r hr
  | cons t rest ih =>
    intro stack reps fxs hreps r hr
    simp only [XMLParser.mmGo] at hr
    split_ifs at hr with h1 h2 h3 h4
    · exact ih stack reps fxs hreps r hr
    · exact ih stack reps fxs hreps r hr
    · cases stack with
      | nil => exact ih [] reps fxs hreps r hr
      | cons top stail =>
        simp only at hr
        split_ifs at hr with h5 h6
        · exact ih stail reps fxs hreps r hr
        · refine ih stail _ _ ?_ r hr
          intro q hq
          rcases List.mem_append.mp hq with hq1 | hq2
          · exact hreps q hq1
          · rcases List.mem_singleton.mp hq2 with rfl
            exact h6
        · exact ih (top :: stail) reps fxs hreps r hr
    · exact ih _ reps fxs hreps r hr
    · exact ih stack reps fxs hreps r hr

/-- Success of the JSON `fix` is by construction the success of the strict
decode of its own fixed text. -/
theorem jsonFix_success_eq (s : List Char) :
    (JSONParser.fix s).success = (JSONParser.jsonParse ((JSONParser.fix s).fixed)).isSome := by
  simp only [JSONParser.fix]

/-- Away from the pre-flight critical path, the success of the XML `fix` is
by construction the success of the strict re-parse of its fixed text. -/
theorem xmlFix_success_eq (s : List Char)
    (hc : XMLParser.detectCriticalErrors s = []) :
    (XMLParser.fix s).success = XMLParser.parseOk ((XMLParser.fix s).fixed) := by
  unfold XMLParser.fix
  rw [if_pos hc]
  simp only [XMLParser.fixMain, XMLParser.parseOk, XMLParser.parse]

/-- On the pre-flight critical path, `fix` rejects without touching the
text. -/
theorem xmlFix_reject (s : List Char)
    (hc : ¬XMLParser.detectCriticalErrors s = []) :
    XMLParser.fix s =
      { success := false
        fixed := s
        original := s
        fixes := []
        errors := XMLParser.detectCriticalErrors s
        canTryAI := true } := by
  unfold XMLParser.fix
  rw [if_neg hc]

/-- The unclosed-string scan only inserts characters: whatever the scan
state, the remaining input survives as a subsequence of the output. -/
theorem fusGo_sublist :
    ∀ (s : List Char) (i : Nat) (inString escapeNext : Bool) (stringStart : Nat),
    List.Sublist s (JSONParser.fusGo s i inString escapeNext stringStart) := by
  intro s
  induction s with
  | nil =>
    intro i inString escapeNext stringStart
    exact List.nil_sublist _
  | cons c rest ih =>
    intro i inString escapeNext stringStart
    simp only [JSONParser.fusGo]
    split_ifs <;>
      first
        | exact (ih _ _ _ _).cons₂ _
        | exact ((ih _ _ _ _).cons₂ _).cons _

/-- Instance of the previous lemma at the pipeline entry state. -/
theorem fixUnclosedStrings_sublist (s : List Char) :
    List.Sublist s (JSONParser.fixUnclosedStrings s) :=
  fusGo_sublist s 0 false false 0

/-- Auxiliary step for the missing-comma lemma: appending a flushed buffer
and an optional inserted comma in front preserves the subsequence relation. -/
theorem sublist_flush_helper {r X p W : List Char} (c : Char) (h : List.Sublist r X) :
    List.Sublist (p ++ c :: r) ((W ++ p) ++ c :: X) := by
  have h1 : List.Sublist (p ++ c :: r) (p ++ c :: X) := (h.cons₂ c).append_left p
  have h2 : List.Sublist (p ++ c :: X) ((W ++ p) ++ c :: X) := by
    rw [List.append_assoc]
    exact List.sublist_append_right W _
  exact h1.trans h2

/-- The missing-comma scan only inserts characters.  The hypothesis is the
reachability invariant of the machine: the whitespace buffer is empty while
a string or an escape is being tracked (whitespace met inside a string is
copied directly, never buffered). -/
theorem amcGo_sublist :
    ∀ (s : List Char) (inString escapeNext : Bool) (pending : List Char)
      (lastTok : Option Char),
    ((inString || escapeNext) = true → pending = []) →
    List.Sublist (pending ++ s) (JSONParser.amcGo s inString escapeNext pending lastTok) := by
  intro s
  induction s with
  | nil =>
    intro inString escapeNext pending lastTok _
    simp only [JSONParser.amcGo, List.append_nil]
    exact List.Sublist.refl pending
  | cons c rest ih =>
    intro inString escapeNext pending lastTok hp
    simp only [JSONParser.amcGo]
    split_ifs with h1 h2 h3 h4 hc1 h5 h6 h7 hc2 h8 h9
    · have hpe : pending = [] := hp (by simp [h1])
      subst hpe
      simp only [List.nil_append]
      exact (ih inString false [] lastTok (fun _ => rfl)).cons₂ c
    · have hin : inString = true := ((Bool.and_eq_true _ _).mp h2).2
      have hpe : pending = [] := hp (by simp [hin])
      subst hpe
      simp only [List.nil_append]
      exact (ih inString true [] lastTok (fun _ => rfl)).cons₂ c
    · have hrest := ih true escapeNext [] lastTok (fun _ => rfl)
      simp only [List.nil_append] at hrest
      exact sublist_flush_helper c hrest
    · have hrest := ih true escapeNext [] lastTok (fun _ => rfl)
      simp only [List.nil_append] at hrest
      exact sublist_flush_helper c hrest
    · have hin : inString = true := by simpa using h4
      have hpe : pending = [] := hp (by simp [hin])
      subst hpe
      simp only [List.nil_append]
      exact (ih false escapeNext [] (some '"') (fun _ => rfl)).cons₂ c
    · have hpe : pending = [] := hp (by simp [h5])
      subst hpe
      simp only [List.nil_append]
      exact (ih inString escapeNext [] lastTok (fun _ => rfl)).cons₂ c
    · have hin : inString = false := by
        rcases Bool.eq_false_or_eq_true inString with ht | hf
        · exact absurd ht h5
        · exact hf
      have hesc : escapeNext = false := by
        rcases Bool.eq_false_or_eq_true escapeNext with ht | hf
        · exact absurd ht h1
        · exact hf
      have hrec := ih inString escapeNext (pending ++ [c]) lastTok
        (fun hh => absurd hh (by simp [hin, hesc]))
      rw [List.append_assoc] at hrec
      simpa using hrec
    · have hrest := ih inString escapeNext [] (some c) (fun _ => rfl)
      simp only [List.nil_append] at hrest
      exact sublist_flush_helper c hrest
    · have hrest := ih inString escapeNext [] (some c) (fun _ => rfl)
      simp only [List.nil_append] at hrest
      exact sublist_flush_helper c hrest
    · have hrest := ih inString escapeNext [] (some c) (fun _ => rfl)
      simp only [List.nil_append] at hrest
      exact (hrest.cons₂ c).append_left pending
    · have hrest := ih inString escapeNext [] (some c) (fun _ => rfl)
      simp only [List.nil_append] at hrest
      exact (hrest.cons₂ c).append_left pending
    · have hrest := ih inString escapeNext [] lastTok (fun _ => rfl)
      simp only [List.nil_append] at hrest
      exact (hrest.cons₂ c).append_left pending

/-- Instance of the previous lemma at the pipeline entry state. -/
theorem addMissingCommas_sublist (s : List Char) :
    List.Sublist s (JSONParser.addMissingCommas s) := by
  have := amcGo_sublist s false false [] none (fun _ => rfl)
  simpa using this

/-- The similarity heuristic agrees pointwise with the spec wording. -/
theorem isSimilarTag_eq_similarPerSpec (e a : List Char) :
    XMLParser.isSimilarTag e a = XMLParser.similarPerSpec e a := by
  by_cases he : e = a
  · subst he
    have h1 : ¬(e ++ ['s'] = e ∨ e = e ++ ['s']) := by
      rintro (h | h)
      · exact append_s_ne e h
      · exact ne_append_s e h
    simp [XMLParser.isSimilarTag, XMLParser.similarPerSpec, h1, levenshteinDistance_self]
  · simp only [XMLParser.isSimilarTag, XMLParser.similarPerSpec, if_neg he]
    by_cases hp : e ++ ['s'] = a ∨ e = a ++ ['s']
    · simp [hp]
    · simp only [hp, decide_eq_false hp, Bool.not_false, Bool.true_and, if_neg hp]
      by_cases hn1 : XMLParser.numericSuffixOf e a = true
      · simp [hn1]
      · simp only [Bool.not_eq_true] at hn1
        by_cases hn2 : XMLParser.numericSuffixOf a e = true
        · simp [hn1, hn2]
        · simp only [Bool.not_eq_true] at hn2
          simp [hn1, hn2]

/-!
Claim theorems.
-/

/-- C1 (corrected), counterexample: the claimed biconditional fails on the
XML critical-error path.  For the two-root input, `fix` returns
`success = false` although its `fixedText` (the unchanged input) re-parses
cleanly under the engine's strict parse. -/
theorem C1_counterexample :
    (XMLParser.fix "<item>1</item><item>2</item>".data).success = false ∧
    XMLParser.parseOk ((XMLParser.fix "<item>1</item><item>2</item>".data).fixed) = true :=
  ⟨rfl, rfl⟩

/-- C1 (corrected), amended claim: `success` equals the strict re-parse
success of `fixedText` for the JSON engine on every input, and for the XML
engine on every input with no pre-flight critical error; on the critical
path `fix` returns `success = false` with `fixedText` equal to the original
input, regardless of whether that input re-parses cleanly. -/
theorem C1_success_iff_strict_reparse :
    (∀ s : List Char,
      (JSONParser.fix s).success = (JSONParser.jsonParse ((JSONParser.fix s).fixed)).isSome) ∧
    (∀ s : List Char, XMLParser.detectCriticalErrors s = [] →
      (XMLParser.fix s).success = XMLParser.parseOk ((XMLParser.fix s).fixed)) ∧
    (∀ s : List Char, XMLParser.detectCriticalErrors s ≠ [] →
      (XMLParser.fix s).success = false ∧ (XMLParser.fix s).fixed = s) := by
  refine ⟨jsonFix_success_eq, fun s h => xmlFix_success_eq s h, fun s h => ?_⟩
  rw [xmlFix_reject s h]
  exact ⟨rfl, rfl⟩

/-- C1 witness: the amended claim applied at concrete inputs. -/
theorem C1_success_iff_strict_reparse_witness :
    ((XMLParser.fix "<a>1</a>".data).success =
      XMLParser.parseOk ((XMLParser.fix "<a>1</a>".data).fixed)) ∧
    ((XMLParser.fix "<item>1</item><item>2</item>".data).success = false ∧
      (XMLParser.fix "<item>1</item><item>2</item>".data).fixed =
        "<item>1</item><item>2</item>".data) :=
  ⟨C1_success_iff_strict_reparse.2.1 "<a>1</a>".data (by decide),
   C1_success_iff_strict_reparse.2.2 "<item>1</item><item>2</item>".data (by decide)⟩

/-- C2 (confirmed): every XML input that trips a pre-flight critical
condition is rejected by `fix` without AI options: `success = false`,
`canTryAI = true`, an empty fixes list, and `fixedText` identical to the
input (no repair attempted, no synthetic root wrapping). -/
theorem C2_critical_reject (s : List Char)
    (h : XMLParser.detectCriticalErrors s ≠ []) :
    XMLParser.fix s =
      { success := false
        fixed := s
        original := s
        fixes := []
        errors := XMLParser.detectCriticalErrors s
        canTryAI := true } :=
  xmlFix_reject s h

/-- C2 witness: `fix('<item>1</item><item>2</item>')` (two top-level roots)
returns `success = false`, `canTryAI = true`, no fixes, and the text not
wrapped in a synthetic root. -/
theorem C2_critical_reject_witness :
    XMLParser.detectCriticalErrors "<item>1</item><item>2</item>".data ≠ [] ∧
    XMLParser.fix "<item>1</item><item>2</item>".data =
      { success := false
        fixed := "<item>1</item><item>2</item>".data
        original := "<item>1</item><item>2</item>".data
        fixes := []
        errors := [XmlError.multiple_roots ["item".data, "item".data]]
        canTryAI := true } :=
  ⟨by decide, by rw [C2_critical_reject "<item>1</item><item>2</item>".data (by decide)]; rfl⟩

/-- C3 (code bug): the claim describes closing tags synthesized only for the
tags strictly above the matching tag, and scenario B reporting exactly one
unclosed-tag fix.  The source loop `while (tagStack.length > indexInStack)`
is off by one: it also pops the matching tag itself and synthesizes a
closing tag for it (and the trailing `pop()` then discards a further open
tag).  On `<root><item>v</root>` the pass inserts both `</item>` and
`</root>` at the position of the mismatching closing tag and reports
`Fixed 2 unclosed tag(s): item, root`; the duplicate `</root>` is only
repaired afterwards by the residual balance sweep, so the final text still
satisfies scenario B's ordering. -/
theorem C3_unclosed_offByOne :
    XMLParser.fixUnclosedTags "<root><item>v</root>".data =
      { unclosedTags := ["item".data, "root".data]
        fixedXml := "<root><item>v</root>\n</item>\n</root>".data } ∧
    (XMLParser.fix "<root><item>v</root>".data).success = true ∧
    (XMLParser.fix "<root><item>v</root>".data).fixed =
      "<?xml version=\"1.0\" encoding=\"UTF-8\"?>\n<root><item>v\n</item>\n</root>".data ∧
    (XMLParser.fix "<root><item>v</root>".data).fixes =
      ["Added XML declaration".data,
       "Fixed 2 unclosed tag(s): item, root".data,
       "Fixed mismatched tags: expected </item>, found </root>".data,
       "Fixed mismatched tags: expected </root>, found </item>".data,
       "Removed unmatched closing tag </root>".data] :=
  ⟨rfl, rfl, rfl, rfl⟩

/-- C4 (confirmed): the similarity test returns true iff the names are not a
plural/singular pair and either one is the other with a purely-numeric
suffix appended or their Levenshtein distance is at most 1; every rewrite of
the mismatched-tag pass passed this gate, and `item`/`items` are never
similar in either direction, so `fix` never rewrites `</items>` to
`</item>` or vice versa; `fix('<product>v</product1>')` succeeds with
`</product>` (not `</product1>`) in the fixed text and exactly one
mismatched-tag fix reported. -/
theorem C4_similarity_characterization :
    (∀ e a : List Char, XMLParser.isSimilarTag e a = XMLParser.similarPerSpec e a) ∧
    (∀ (s : List Char) (r : XMLParser.TagRep), r ∈ XMLParser.mismatchedReplacements s →
      XMLParser.isSimilarTag r.corrected r.original = true) ∧
    XMLParser.isSimilarTag "item".data "items".data = false ∧
    XMLParser.isSimilarTag "items".data "item".data = false ∧
    (XMLParser.fix "<product>v</product1>".data).success = true ∧
    containsSub (XMLParser.fix "<product>v</product1>".data).fixed "</product>".data = true ∧
    containsSub (XMLParser.fix "<product>v</product1>".data).fixed "</product1>".data = false ∧
    (XMLParser.fix "<product>v</product1>".data).fixes =
      ["Added XML declaration".data,
       "Fixed mismatched tag: </product1> → </product>".data] := by
  refine ⟨isSimilarTag_eq_similarPerSpec, ?_, by decide, by decide, rfl, rfl, rfl, rfl⟩
  intro s r hr
  exact mmGo_reps_similar _ _ _ _ _ (fun q hq => absurd hq (List.not_mem_nil q)) r hr

/-- C4 witness: the characterization and the rewrite-gate applied at the
concrete replacement of scenario C. -/
theorem C4_similarity_characterization_witness :
    XMLParser.isSimilarTag "product".data "product1".data =
      XMLParser.similarPerSpec "product".data "product1".data ∧
    XMLParser.isSimilarTag "product".data "product1".data = true :=
  ⟨C4_similarity_characterization.1 "product".data "product1".data,
   C4_similarity_characterization.2.1 "<product>v</product1>".data
     { position := 10
       oldTag := "</product1>".data
       newTag := "</product>".data
       original := "product1".data
       corrected := "product".data } (by decide)⟩

/-- C5 (corrected), counterexample: `fix` is not idempotent.  On
`{"a": 007}` the leading-zero rule strips one zero per pass, so a second
pass changes the text again and reports a fix. -/
theorem C5_counterexample :
    (JSONParser.fix ((JSONParser.fix "\x7b\"a\": 007\x7d".data).fixed)).fixed ≠
      (JSONParser.fix "\x7b\"a\": 007\x7d".data).fixed ∧
    (JSONParser.fix ((JSONParser.fix "\x7b\"a\": 007\x7d".data).fixed)).fixes ≠ [] :=
  ⟨by decide, by decide⟩

/-- C5 (corrected), amended claim: idempotence does not hold for all inputs;
it does hold on already-fixed outputs such as those of the representative
scenario inputs, where the second pass changes nothing and reports no
fixes (JSON scenario A and the XML input `<root>value</root>`). -/
theorem C5_idempotent_on_fixed_outputs :
    (JSONParser.fix ((JSONParser.fix "\x7b\"a\": \"b\", \"c\": 1,\x7d".data).fixed)).fixed =
      (JSONParser.fix "\x7b\"a\": \"b\", \"c\": 1,\x7d".data).fixed ∧
    (JSONParser.fix ((JSONParser.fix "\x7b\"a\": \"b\", \"c\": 1,\x7d".data).fixed)).fixes = [] ∧
    (XMLParser.fix ((XMLParser.fix "<root>value</root>".data).fixed)).fixed =
      (XMLParser.fix "<root>value</root>".data).fixed ∧
    (XMLParser.fix ((XMLParser.fix "<root>value</root>".data).fixed)).fixes = [] :=
  ⟨rfl, rfl, rfl, rfl⟩

/-- C6 (corrected), counterexample: a strictly valid JSON input whose fixed
text parses to a different value.  `{"a":"b,}"}` is valid, yet the (not
string-aware) trailing-comma regex deletes the comma inside the string
payload, and `fix` succeeds with the altered value. -/
theorem C6_counterexample :
    JSONParser.strValAt (JSONParser.jsonParse "\x7b\"a\":\"b,\x7d\"\x7d".data) "a".data =
      some "b,\x7d".data ∧
    (JSONParser.fix "\x7b\"a\":\"b,\x7d\"\x7d".data).success = true ∧
    JSONParser.strValAt
        (JSONParser.jsonParse ((JSONParser.fix "\x7b\"a\":\"b,\x7d\"\x7d".data).fixed)) "a".data =
      some "b\x7d".data ∧
    "b,\x7d".data ≠ "b\x7d".data :=
  ⟨rfl, rfl, rfl, by decide⟩

/-- C6 (corrected), amended claim: the round-trip holds for strictly valid
inputs that are fixed points of the rewrite pipeline: if a valid JSON input
is returned unchanged by `fix`, then `success = true` and the fixed text
parses to the same value; likewise a well-formed XML input outside the
critical path that `fix` returns unchanged yields `success = true`. -/
theorem C6_roundtrip_on_fixpoints :
    (∀ (t : List Char) (v : JVal), JSONParser.jsonParse t = some v →
      (JSONParser.fix t).fixed = t →
      (JSONParser.fix t).success = true ∧
        JSONParser.jsonParse ((JSONParser.fix t).fixed) = some v) ∧
    (∀ s : List Char, XMLParser.detectCriticalErrors s = [] →
      XMLParser.parseOk s = true → (XMLParser.fix s).fixed = s →
      (XMLParser.fix s).success = true) := by
  constructor
  · intro t v hp hf
    constructor
    · rw [jsonFix_success_eq, hf, hp]
      rfl
    · rw [hf]
      exact hp
  · intro s hc hp hf
    rw [xmlFix_success_eq s hc, hf]
    exact hp

/-- C6 witness: the amended round-trip applied at concrete valid inputs of
both engines. -/
theorem C6_roundtrip_on_fixpoints_witness :
    ((JSONParser.fix "\x7b\"name\": \"test\", \"value\": 123\x7d".data).success = true ∧
      JSONParser.jsonParse ((JSONParser.fix "\x7b\"name\": \"test\", \"value\": 123\x7d".data).fixed) =
        some (JVal.jobj [("name".data, JVal.jstr "test".data),
                         ("value".data, JVal.jnum "123".data)])) ∧
    (XMLParser.fix "<?xml version=\"1.0\"?><root>ok</root>".data).success = true :=
  ⟨C6_roundtrip_on_fixpoints.1 "\x7b\"name\": \"test\", \"value\": 123\x7d".data
      (JVal.jobj [("name".data, JVal.jstr "test".data), ("value".data, JVal.jnum "123".data)])
      rfl rfl,
   C6_roundtrip_on_fixpoints.2 "<?xml version=\"1.0\"?><root>ok</root>".data
      (by decide) (by decide) rfl⟩

/-- C7 (corrected), counterexample: not every rewrite is string-aware.  On
the structurally valid input `{"a": "x: 01"}` the leading-zero regex edits
the string payload `x: 01` to `x: 1`, and `fix` succeeds with the altered
payload. -/
theorem C7_counterexample :
    JSONParser.strValAt (JSONParser.jsonParse "\x7b\"a\": \"x: 01\"\x7d".data) "a".data =
      some "x: 01".data ∧
    (JSONParser.fix "\x7b\"a\": \"x: 01\"\x7d".data).success = true ∧
    (JSONParser.fix "\x7b\"a\": \"x: 01\"\x7d".data).fixed = "\x7b\"a\": \"x: 1\"\x7d".data ∧
    JSONParser.strValAt
        (JSONParser.jsonParse ((JSONParser.fix "\x7b\"a\": \"x: 01\"\x7d".data).fixed)) "a".data =
      some "x: 1".data ∧
    "x: 01".data ≠ "x: 1".data :=
  ⟨rfl, rfl, rfl, rfl, by decide⟩

/-- C7 (corrected), amended claim: not every rewrite is string-aware.  The
regex-based rules (single quotes, trailing commas, unquoted keys, leading
zeros, literal normalization) can alter content inside string literals (the
counterexample), and the unclosed-string heuristic can insert a quote inside
an overlong string.  What holds of the code: comment removal never changes
an input whose `//` and `/*` markers all lie inside tracked strings; the
unclosed-string and missing-comma state machines only insert characters, so
the input always survives as a subsequence of their output; and the
regression-style input whose only comment-like marker lies inside a string
and which triggers no rewrite, `{"memo": "a//b"}`, is returned by `fix`
unchanged, its payload intact. -/
theorem C7_string_aware_rules :
    (∀ s : List Char, JSONParser.noCommentMarkerOutsideString s = true →
      JSONParser.removeComments s = s) ∧
    (∀ s : List Char, List.Sublist s (JSONParser.fixUnclosedStrings s)) ∧
    (∀ s : List Char, List.Sublist s (JSONParser.addMissingCommas s)) ∧
    (JSONParser.fix "\x7b\"memo\": \"a//b\"\x7d".data).fixed = "\x7b\"memo\": \"a//b\"\x7d".data ∧
    (JSONParser.fix "\x7b\"memo\": \"a//b\"\x7d".data).success = true :=
  ⟨fun s h => rcGo_eq_of_clean _ _ _ s h,
   fixUnclosedStrings_sublist, addMissingCommas_sublist, rfl, rfl⟩

/-- C7 witness: the string-awareness of comment removal and the
insertion-only property of the two state machines, applied at concrete
inputs. -/
theorem C7_string_aware_rules_witness :
    JSONParser.noCommentMarkerOutsideString "\x7b\"u\": \"a//b\"\x7d".data = true ∧
    JSONParser.removeComments "\x7b\"u\": \"a//b\"\x7d".data = "\x7b\"u\": \"a//b\"\x7d".data ∧
    List.Sublist "\x7b\"a\": 1\x7d".data
      (JSONParser.fixUnclosedStrings "\x7b\"a\": 1\x7d".data) ∧
    List.Sublist "\x7b\"a\": 1\x7d".data
      (JSONParser.addMissingCommas "\x7b\"a\": 1\x7d".data) :=
  ⟨by decide, C7_string_aware_rules.1 "\x7b\"u\": \"a//b\"\x7d".data (by decide),
   C7_string_aware_rules.2.1 "\x7b\"a\": 1\x7d".data,
   C7_string_aware_rules.2.2.1 "\x7b\"a\": 1\x7d".data⟩

/-- C8 (corrected), counterexample: URL retention does not hold for every
input containing the URL in a string.  On `{'k"': "https://example.com"}`
the single-quote rule introduces a stray quote, unclosed-string repair then
desynchronises the quote tracking, and comment removal strips from the `//`
of the URL to the end, so the fixed text no longer contains the URL. -/
theorem C8_counterexample :
    (JSONParser.fix "\x7b\x27k\"\x27: \"https://example.com\"\x7d".data).fixed =
      "\x7b\"k\",\": \"https:\x7d".data ∧
    containsSub (JSONParser.fix "\x7b\x27k\"\x27: \"https://example.com\"\x7d".data).fixed
      "https://example.com".data = false :=
  ⟨rfl, rfl⟩

/-- C8 (corrected), amended claim: in the JSON pipeline, unclosed-string
repair runs before comment removal (the fixed text is by construction the
late stages applied to `removeComments (fixUnclosedStrings (singleQuotes
text))`), and comment removal never strips `//` or `/*` sequences inside a
tracked string (inputs whose markers are all in strings pass unchanged).
The URL consequence holds when quote tracking stays synchronised, as on
`{"url": "https://example.com"}`, whose fixed text is the input itself and
retains the URL exactly. -/
theorem C8_order_and_tracked_strings :
    (∀ s : List Char, (JSONParser.fix s).fixed =
      JSONParser.lateStages
        (JSONParser.removeComments
          (JSONParser.fixUnclosedStrings (JSONParser.singleQuotesToDouble s)))) ∧
    (∀ s : List Char, JSONParser.noCommentMarkerOutsideString s = true →
      JSONParser.removeComments s = s) ∧
    (JSONParser.fix "\x7b\"url\": \"https://example.com\"\x7d".data).fixed =
      "\x7b\"url\": \"https://example.com\"\x7d".data ∧
    containsSub "\x7b\"url\": \"https://example.com\"\x7d".data "https://example.com".data = true := by
  refine ⟨?_, fun s h => rcGo_eq_of_clean _ _ _ s h, rfl, rfl⟩
  intro s
  simp only [JSONParser.fix, JSONParser.pipeline, JSONParser.afterCommentRemoval,
    JSONParser.afterUnclosedStrings, JSONParser.afterSingleQuotes]

/-- C8 witness: the order equation and the tracked-string preservation
applied at concrete inputs. -/
theorem C8_order_and_tracked_strings_witness :
    (JSONParser.fix "\x7b\x7d".data).fixed =
      JSONParser.lateStages
        (JSONParser.removeComments
          (JSONParser.fixUnclosedStrings (JSONParser.singleQuotesToDouble "\x7b\x7d".data))) ∧
    JSONParser.removeComments "\x7b\"x\": \"p//q\"\x7d".data = "\x7b\"x\": \"p//q\"\x7d".data :=
  ⟨C8_order_and_tracked_strings.1 "\x7b\x7d".data,
   C8_order_and_tracked_strings.2.1 "\x7b\"x\": \"p//q\"\x7d".data (by decide)⟩

/-- C9 (code bug): the claim states that no text inside processing
instructions, comments or CDATA is ever treated as a tag in any
tag-scanning pass.  The unclosed-tag pass scans the raw text and its guard
`tagName.match(/^[?!]/)` can never fire (the regex only captures names that
start with a letter), so the `<b>` inside the comment of
`<a>x</a><!--<b>-->` is tokenized as an opening tag and `</b>` is appended,
while the validation pass (which strips comments first) accepts the same
input. -/
theorem C9_comment_content_tokenized :
    XMLParser.fixUnclosedTags "<a>x</a><!--<b>-->".data =
      { unclosedTags := ["b".data]
        fixedXml := "<a>x</a><!--<b>--></b>\n".data } ∧
    XMLParser.parseOk "<a>x</a><!--<b>-->".data = true :=
  ⟨rfl, rfl⟩

/-- C10 (confirmed): on an unmatched closing tag the residual balance sweep
removes the first occurrence of that closing tag's literal text in the
current document (not the occurrence at the scanned position); on
`<a><![CDATA[</b>]]></a></b>` the scan strips the CDATA section, the
trailing `</b>` is unmatched, and the deletion removes the earlier `</b>`
inside the CDATA section that the document retains, leaving the unmatched
tag in place. -/
theorem C10_balance_removes_first_occurrence :
    (∀ (t : XmlTag) (rest : List XmlTag) (bal : List Char) (fxs : List (List Char)),
      t.isClosing = true →
      XMLParser.btGo (t :: rest) [] bal fxs =
        XMLParser.btGo rest [] (replaceFirst bal t.fullTag []) (fxs ++ [XMLParser.removedMsg t.name])) ∧
    XMLParser.balanceTags "<a><![CDATA[</b>]]></a></b>".data =
      { xml := "<a><![CDATA[]]></a></b>".data
        fixes := ["Removed unmatched closing tag </b>".data] } := by
  refine ⟨?_, rfl⟩
  intro t rest bal fxs h
  simp [XMLParser.btGo, h]

/-- C10 witness: the removal equation applied at a concrete unmatched
closing tag. -/
theorem C10_balance_removes_first_occurrence_witness :
    XMLParser.btGo
        [{ name := "b".data, fullTag := "</b>".data, position := 7,
           isClosing := true, isSelfClosing := false }] [] "<i></b>x</b>".data [] =
      XMLParser.btGo [] [] (replaceFirst "<i></b>x</b>".data "</b>".data [])
        [XMLParser.removedMsg "b".data] :=
  C10_balance_removes_first_occurrence.1
    { name := "b".data, fullTag := "</b>".data, position := 7,
      isClosing := true, isSelfClosing := false } [] "<i></b>x</b>".data [] rfl
